import Mathlib

/-!
Shallow embedding of `joi-validate-patch` (src/lib/joi-validate-patch.js):
a validator for JSON-Patch operation lists against a Joi-style schema,
checked without materializing a document.  The external Joi value engine
and the external patch-shape check (fast-json-patch) are opaque
collaborators: the engine is a function parameter, the shape check is
modelled from the spec.
-/

namespace JVP

/-- JavaScript-like values, enough to express patch operation values and
their truthiness. `undefined` is represented as `Option.none` at use sites. -/
inductive JsValue where
  | vNull
  | vBool (b : Bool)
  | vNum (n : Int)
  | vStr (s : String)
  | vArr (elems : List JsValue)
  | vObj (fields : List (String × JsValue))

/-- JavaScript truthiness of a value: `null`, `false`, `0` and `""` are
falsy; arrays and objects are always truthy. -/
def jsTruthy : JsValue → Bool
  | .vNull => false
  | .vBool b => b
  | .vNum n => n != 0
  | .vStr s => s != ""
  | .vArr _ => true
  | .vObj _ => true

/-- Truthiness of a possibly-absent value (absent = JS `undefined`). -/
def truthyOptVal : Option JsValue → Bool
  | none => false
  | some v => jsTruthy v

/-- Truthiness of a possibly-absent string property (empty string is falsy). -/
def truthyOptStr : Option String → Bool
  | none => false
  | some s => s != ""

/-- A Joi rule node as `getValidator` consumes it: its `_type` tag, its
`_inner.items` (array item rules) and `_inner.children` (named children
of object rules, as key/schema pairs). -/
inductive Rule where
  | mk (rtype : String) (items : List Rule) (children : List (String × Rule))

/-- The `_type` tag of a rule. -/
def Rule.rtype : Rule → String
  | .mk t _ _ => t

/-- The `_inner.items` list of a rule. -/
def Rule.items : Rule → List Rule
  | .mk _ i _ => i

/-- The `_inner.children` list of a rule. -/
def Rule.children : Rule → List (String × Rule)
  | .mk _ _ c => c

/-- A schema tree node: either a Joi rule (`isJoi` true in the source) or a
plain nested container mapping field names to child nodes.  Absence of a
node is `Option.none` at use sites. -/
inductive SchemaNode where
  | joi (r : Rule)
  | plain (fields : List (String × SchemaNode))

/-- First-match lookup in an association list, as `.find(obj => obj.key == key)`
and plain-object property access behave in the source. -/
def lookupField (key : String) : List (String × α) → Option α
  | [] => none
  | (k, v) :: rest => if k = key then some v else lookupField key rest

/-- One iteration of the `parts.forEach` walk in `getValidator`: descend from
the current cursor by one pointer segment.  An already-absent cursor stays
absent; a plain container descends by property lookup; an array-kind rule
descends to its single item rule exactly when it declares one item rule and
to absent otherwise; any other rule descends to the named child or absent. -/
def stepPath : Option SchemaNode → String → Option SchemaNode
  | none, _ => none
  | some (.plain fields), key => lookupField key fields
  | some (.joi r), key =>
    if r.rtype = "array" then
      match r.items with
      | [item] => some (.joi item)
      | _ => none
    else
      match lookupField key r.children with
      | some child => some (.joi child)
      | none => none

/-- Split a character list at every `/`, as JavaScript `split('/')` does
(an empty input gives one empty piece). -/
def splitSlashAux : List Char → List (List Char)
  | [] => [[]]
  | c :: rest =>
    let r := splitSlashAux rest
    if c = '/' then [] :: r
    else
      match r with
      | [] => [[c]]
      | h :: t => (c :: h) :: t

/-- JavaScript `s.split('/')`. -/
def splitSlash (s : String) : List String :=
  (splitSlashAux s.data).map fun cs => ⟨cs⟩

/-- `(pointer || '').split('/').splice(1)`: the pointer segments after the
leading empty segment. -/
def pointerParts (pointer : String) : List String :=
  (splitSlash pointer).drop 1

/-- `getValidator(schema, pointer)`: resolve a slash-delimited pointer to the
schema node governing it, or absent. -/
def getValidator (schema : Option SchemaNode) (pointer : Option String) : Option SchemaNode :=
  List.foldl stepPath schema (pointerParts (pointer.getD ""))

/-- An absent cursor stays absent for the remainder of the walk. -/
theorem foldl_stepPath_none (parts : List String) :
    List.foldl stepPath none parts = none := by
  induction parts with
  | nil => rfl
  | cons p rest ih => simpa [List.foldl, stepPath] using ih

/-- C2: at an array-kind rule node the resolver yields the single item rule
for any segment (numeric index or the append marker alike) when exactly one
item rule is declared, and yields absent for the remainder of the walk when
the array declares zero or several item rules. -/
theorem array_resolution (r : Rule) (h : r.rtype = "array") (seg : String) :
    (∀ item, r.items = [item] → stepPath (some (.joi r)) seg = some (.joi item)) ∧
    (r.items.length ≠ 1 → ∀ rest : List String,
      List.foldl stepPath (stepPath (some (.joi r)) seg) rest = none) := by
  constructor
  · intro item hitem
    simp [stepPath, h, hitem]
  · intro hlen rest
    have hstep : stepPath (some (.joi r)) seg = none := by
      simp only [stepPath, h, if_pos]
      match hi : r.items with
      | [] => rfl
      | [item] => exact absurd (by rw [hi]; rfl) hlen
      | a :: b :: t => rfl
    rw [hstep]
    exact foldl_stepPath_none rest

/-- Sample item rule used by concrete witnesses. -/
def toyRule : Rule := .mk "string" [] []

/-- Homogeneous array rule: exactly one item rule. -/
def favToysRule : Rule := .mk "array" [toyRule] []

/-- Heterogeneous array rule: two item rules. -/
def multiArrRule : Rule := .mk "array" [toyRule, .mk "number" [] []] []

/-- Witness for C2 at concrete inputs: a homogeneous array resolves the
append marker to its item rule; a two-item array resolves an index to
absent and stays absent one segment later. -/
theorem array_resolution_witness :
    stepPath (some (.joi favToysRule)) "-" = some (.joi toyRule) ∧
    List.foldl stepPath (stepPath (some (.joi multiArrRule)) "0") ["x"] = none := by
  refine ⟨(array_resolution favToysRule rfl "-").1 toyRule rfl, ?_⟩
  exact (array_resolution multiArrRule rfl "0").2 (by decide) ["x"]

/-- A patch operation object: `op`, `path`, `from` (named `fromPath` here,
`from` being reserved in Lean) and `value`; absent properties are `none`. -/
structure PatchStep where
  op : String
  path : Option String
  fromPath : Option String
  value : Option JsValue

/-- An element of the incoming patch array: a proper operation object or a
non-object scalar (the source never restricts array elements). -/
inductive PatchElem where
  | step (s : PatchStep)
  | scalar (v : JsValue)

/-- Truthiness of a patch element: operation objects are always truthy. -/
def PatchElem.truthy : PatchElem → Bool
  | .step _ => true
  | .scalar v => jsTruthy v

/-- The `supportMap` of required properties per operation kind. -/
def supportMap : List (String × List String) :=
  [("add", ["path", "value"]),
   ("remove", ["path"]),
   ("replace", ["path", "value"]),
   ("copy", ["from", "path"]),
   ("move", ["from", "path"]),
   ("test", ["path", "value"])]

/-- Options recognized by `validate` (`defaultOptions` keys). -/
structure JVOptions where
  abortEarly : Bool
  allowedOps : List String
  allowUnknown : Bool
  convert : Bool

/-- The `defaultOptions` constant. -/
def defaultOptions : JVOptions :=
  { abortEarly := true
    allowedOps := supportMap.map Prod.fst
    allowUnknown := false
    convert := true }

/-- Options as forwarded to the external engine: the copy of the caller
options with the orchestrator-only `allowedOps` removed. -/
structure JoiOpts where
  abortEarly : Bool
  allowUnknown : Bool
  convert : Bool

/-- `delete opts.allowedOps` on a copy of the options. -/
def stripAllowedOps (o : JVOptions) : JoiOpts :=
  { abortEarly := o.abortEarly, allowUnknown := o.allowUnknown, convert := o.convert }

/-- Result of the external engine (`Joi.validate`): an optional failure
(already rendered as a message string, as the source only consumes
`result.error.toString()`) and the normalized value. -/
structure EngineResult where
  error : Option String
  value : Option JsValue

/-- The opaque external value-validation capability: given a possibly-absent
value, a schema node and forwarded options, produce a normalized value and
an optional failure. -/
def Engine : Type :=
  Option JsValue → SchemaNode → JoiOpts → EngineResult

/-- A `ValidationError`: its message, the properties copied from a patch
step (`op`, `from`, `path` after rendering, `value`) and the aggregated
sub-errors when constructed from `{errors: [...]}`. -/
inductive VError where
  | mk (message : String) (op : Option String) (vfrom : Option String)
      (path : Option String) (value : Option JsValue) (errors : Option (List VError))

/-- The message of a `ValidationError`. -/
def VError.message : VError → String
  | .mk m _ _ _ _ _ => m

/-- The `path` property of a `ValidationError`. -/
def VError.path : VError → Option String
  | .mk _ _ _ p _ _ => p

/-- The aggregated sub-errors of a `ValidationError`. -/
def VError.errors : VError → Option (List VError)
  | .mk _ _ _ _ _ e => e

/-- Join string pieces with `/` between them. -/
def joinSlash : List String → String
  | [] => ""
  | [solo] => solo
  | first :: second :: rest => first ++ "/" ++ joinSlash (second :: rest)

/-- `s.replace('/', '.')` in JavaScript with a string pattern: only the
first occurrence of `/` is replaced. -/
def replaceFirstSlash (s : String) : String :=
  match splitSlash s with
  | [] => s
  | [solo] => solo
  | first :: second :: rest => first ++ "." ++ joinSlash (second :: rest)

/-- JavaScript `s.substr(1)`: drop the first character. -/
def dropFirstChar (s : String) : String :=
  ⟨s.data.drop 1⟩

/-- `path.replace('/', '.').substr(1)`: the rendering applied to a truthy
`path` property copied onto an error. -/
def renderPath (p : String) : String :=
  dropFirstChar (replaceFirstSlash p)

/-- The `ValidationError(message, patchStep)` constructor for an operation
step: each of `op`, `from`, `path`, `value` is copied when truthy (a step
carries no `errors` property), then a truthy `path` is rendered. -/
def mkStepError (message : String) (s : PatchStep) : VError :=
  .mk message
    (if s.op != "" then some s.op else none)
    (if truthyOptStr s.fromPath then s.fromPath else none)
    (match s.path with
     | some p => if p != "" then some (renderPath p) else none
     | none => none)
    (if truthyOptVal s.value then s.value else none)
    none

/-- The `ValidationError('empty patch')` constructed with no patch step. -/
def emptyPatchError : VError :=
  .mk "empty patch" none none none none none

/-- Stringification of the wrapped format error: `fail(new ValidationError(msg))`
passes an Error object as the outer message, which JavaScript renders as
`name: message`. -/
def formatErrorMessage (innerMsg : String) : String :=
  "ValidationError: " ++ innerMsg

/-- Presence of a named property on an operation object. -/
def hasProp (s : PatchStep) : String → Bool
  | "path" => s.path.isSome
  | "value" => s.value.isSome
  | "from" => s.fromPath.isSome
  | _ => false

/-- Modelled from the spec: the external patch-operation shape validation
(`jsonpatch.validate` of fast-json-patch, not part of this repository)
verifies that an operation object has the fields required for its declared
`op` kind (add→path,value; remove→path; replace→path,value; copy→from,path;
move→from,path; test→path,value), reporting a malformed-operation message
otherwise. -/
def shapeCheckStep (s : PatchStep) : Option String :=
  match lookupField s.op supportMap with
  | none => some ("invalid operation " ++ s.op)
  | some required =>
    if required.all (hasProp s) then none
    else some ("missing required property for op " ++ s.op)

/-- Result of validating one operation: an optional error and the normalized
operation (present exactly on success). -/
structure StepResult where
  error : Option VError
  value : Option PatchStep

/-- The `fail(msg)` helper of `validateStep`: an error built from the step,
and no value. -/
def failRes (msg : String) (s : PatchStep) : StepResult :=
  { error := some (mkStepError msg s), value := none }

/-- The `if(step.from)` block of `validateStep`: resolve the source path;
fail on an unresolved source unless `allowUnknown`; for `move` with a
resolved source, validate an absent value against the source rule and fail
on an engine failure.  Returns `some` failure or `none` to continue. -/
def fromBlock (engine : Engine) (schema : SchemaNode) (opts : JoiOpts) (s : PatchStep) :
    Option StepResult :=
  if truthyOptStr s.fromPath then
    match getValidator (some schema) s.fromPath with
    | none =>
      if !opts.allowUnknown then
        some (failRes ("invalid source " ++ s.path.getD "undefined") s)
      else none
    | some src =>
      if s.op = "move" then
        match (engine none src opts).error with
        | some emsg => some (failRes emsg s)
        | none => none
      else none
  else none

/-- The value-validation tail of `validateStep`: when a target rule resolved
and the step carries a truthy value, run the engine; the normalized value
replaces the original on the clean copy, and an engine failure fails the
step (discarding the clean copy). -/
def valueCheck (engine : Engine) (opts : JoiOpts) (s : PatchStep) (ru : SchemaNode) :
    StepResult :=
  if truthyOptVal s.value then
    let res := engine s.value ru opts
    match res.error with
    | some emsg => failRes emsg s
    | none => { error := none, value := some { s with value := res.value } }
  else { error := none, value := some s }

/-- The checks of `validateStep` that need the resolved target rule: the
remove pre-check (validate absence against the target rule) and then value
validation; with no resolved rule the step passes through unchanged. -/
def tailChecks (engine : Engine) (opts : JoiOpts) (s : PatchStep) :
    Option SchemaNode → StepResult
  | none => { error := none, value := some s }
  | some ru =>
    if s.op = "remove" then
      match (engine none ru opts).error with
      | some emsg => failRes emsg s
      | none => valueCheck engine opts s ru
    else valueCheck engine opts s ru

/-- `validateStep(schema, options, step)`: shape check, allowed-ops check,
target resolution, source block, remove pre-check and value validation, in
source order, short-circuiting on the first failure. -/
def validateStep (engine : Engine) (schema : SchemaNode) (options : JVOptions) :
    PatchElem → StepResult
  | .scalar _ =>
    { error := some (.mk (formatErrorMessage "Operation is not an object") none none none none none)
      value := none }
  | .step s =>
    match shapeCheckStep s with
    | some fmsg => failRes (formatErrorMessage fmsg) s
    | none =>
      let opts := stripAllowedOps options
      let rule := getValidator (some schema) s.path
      if !(options.allowedOps.contains s.op) then
        failRes ("disallowed op " ++ s.op) s
      else if rule.isNone && !opts.allowUnknown then
        failRes ("invalid path " ++ s.path.getD "undefined") s
      else
        match fromBlock engine schema opts s with
        | some r => r
        | none => tailChecks engine opts s rule

/-- The top-level patch argument: an array of elements, or any non-array
input, which `validate` wraps into a one-element array. -/
inductive PatchArg where
  | one (e : PatchElem)
  | many (elems : List PatchElem)

/-- `if(!Array.isArray(patch)) patch = [patch]`. -/
def normalizeArg : PatchArg → List PatchElem
  | .one e => [e]
  | .many elems => elems

/-- The `if(!patch || !patch[0])` gate: an empty array or a falsy first
element records the `empty patch` error and empties the list of steps to
process. -/
def emptyGate (elems : List PatchElem) : List PatchElem × List VError :=
  match elems with
  | [] => ([], [emptyPatchError])
  | e :: _ => if e.truthy then (elems, []) else ([], [emptyPatchError])

/-- The `patch.every` loop: run `validateStep` on each element in order,
collecting produced values and errors; with `abortEarly` the loop stops
after the first failing element. -/
def runSteps (engine : Engine) (schema : SchemaNode) (options : JVOptions) :
    List PatchElem → List PatchStep × List VError
  | [] => ([], [])
  | e :: rest =>
    let r := validateStep engine schema options e
    let vs := match r.value with
      | some c => [c]
      | none => []
    match r.error with
    | some err =>
      if options.abortEarly then (vs, [err])
      else
        let tail := runSteps engine schema options rest
        (vs ++ tail.1, err :: tail.2)
    | none =>
      let tail := runSteps engine schema options rest
      (vs ++ tail.1, tail.2)

/-- Error aggregation: no error yields null, a single error is returned
unwrapped, several errors are wrapped in one `ValidationError('patch
invalid', {errors})`. -/
def aggregateErrors (errors : List VError) : Option VError :=
  match errors with
  | [] => none
  | [e] => some e
  | es => some (.mk "patch invalid" none none none none (some es))

/-- The overall result of `validate`: the aggregated error (or null) and the
ordered sequence of normalized operations. -/
structure ValidateResult where
  error : Option VError
  value : List PatchStep

/-- The full error list a batch run accumulates: the empty-patch gate error
when it fires, then the per-step errors from the loop. -/
def collectedErrors (engine : Engine) (patch : PatchArg) (schema : SchemaNode)
    (options : JVOptions) : List VError :=
  let gated := emptyGate (normalizeArg patch)
  gated.2 ++ (runSteps engine schema options gated.1).2

/-- `validate(patch, schema, options)` after argument normalization: the
empty-patch gate, the per-element loop, and error aggregation.  (The
callback delivery and the merge of partial options over `defaultOptions`
are argument plumbing outside the claims; options arrive here resolved.) -/
def validate (engine : Engine) (patch : PatchArg) (schema : SchemaNode)
    (options : JVOptions) : ValidateResult :=
  let gated := emptyGate (normalizeArg patch)
  let looped := runSteps engine schema options gated.1
  { error := aggregateErrors (gated.2 ++ looped.2), value := looped.1 }

/-- String rule used by the concrete test schema. -/
def strRule : Rule := .mk "string" [] []

/-- Number rule at `/meta/current/weight` in the concrete test schema. -/
def weightRule : Rule := .mk "number" [] []

/-- Object rule at `/meta` in the concrete test schema, with a nested
object child `current` holding `weight`. -/
def metaRule : Rule :=
  .mk "object" [] [("born", .mk "date" [] []), ("current", .mk "object" [] [("weight", weightRule)])]

/-- Concrete schema mirroring the test fixture: a plain container of Joi
rules, with a homogeneous array at `favoriteToys` and nesting at `meta`. -/
def testSchema : SchemaNode :=
  .plain
    [("id", .joi strRule),
     ("name", .joi strRule),
     ("description", .joi strRule),
     ("favoriteToys", .joi favToysRule),
     ("meta", .joi metaRule)]

/-- Concrete engine that accepts everything and normalizes nothing. -/
def okEngine : Engine := fun v _ _ => { error := none, value := v }

/-- Concrete engine that rejects an absent value (every rule behaves as
required) and accepts any present value unchanged. -/
def reqEngine : Engine := fun v _ _ =>
  { error := match v with
      | none => some "value is required"
      | some _ => none
    value := v }

/-- Concrete engine that rejects every value while still producing a
coerced normalized value, exercising the failure path of value
validation. -/
def coerceFailEngine : Engine := fun _ _ _ =>
  { error := some "value is out of range", value := some (.vNum 7) }

/-- Concrete engine that rejects every present value. -/
def rejectValEngine : Engine := fun v _ _ =>
  { error := match v with
      | none => none
      | some _ => some "value rejected"
    value := v }

/-- Concrete engine that accepts every value and normalizes it to the
number 4, mirroring the numeric coercion of the test fixture. -/
def coerceOkEngine : Engine := fun _ _ _ =>
  { error := none, value := some (.vNum 4) }

/-- Forwarded options project their `allowUnknown` unchanged. -/
theorem stripAllowedOps_allowUnknown (o : JVOptions) :
    (stripAllowedOps o).allowUnknown = o.allowUnknown := rfl

/-- Reduction of `validateStep` past the shape, allowed-ops and
unknown-target gates to the source block and the rule-dependent tail. -/
theorem validateStep_main (engine : Engine) (schema : SchemaNode) (options : JVOptions)
    (s : PatchStep)
    (hshape : shapeCheckStep s = none)
    (hallow : options.allowedOps.contains s.op = true)
    (hgate : ((getValidator (some schema) s.path).isNone && !options.allowUnknown) = false) :
    validateStep engine schema options (.step s)
      = (match fromBlock engine schema (stripAllowedOps options) s with
         | some r => r
         | none => tailChecks engine (stripAllowedOps options) s
             (getValidator (some schema) s.path)) := by
  have h1 : (!(options.allowedOps.contains s.op)) = false := by rw [hallow]; rfl
  have h2 : ((getValidator (some schema) s.path).isNone
      && !(stripAllowedOps options).allowUnknown) = false := hgate
  simp only [validateStep, hshape, h1, h2, Bool.false_eq_true, if_false]

/-- C8: an add, replace or test operation whose target path resolves to a
rule but whose value is falsy (0, empty string, false or null) skips value
validation and normalization entirely and passes through with a null error:
the result is independent of the engine, so it holds even for an engine
that would reject the falsy value. -/
theorem falsy_value_skips_validation (engine : Engine) (schema : SchemaNode)
    (options : JVOptions) (s : PatchStep) (ru : SchemaNode) (v : JsValue)
    (hop : s.op = "add" ∨ s.op = "replace" ∨ s.op = "test")
    (hshape : shapeCheckStep s = none)
    (hallow : options.allowedOps.contains s.op = true)
    (hrule : getValidator (some schema) s.path = some ru)
    (hfrom : truthyOptStr s.fromPath = false)
    (hval : s.value = some v)
    (hfalsy : jsTruthy v = false) :
    validateStep engine schema options (.step s) = { error := none, value := some s } := by
  have hgate : ((getValidator (some schema) s.path).isNone && !options.allowUnknown) = false := by
    rw [hrule]; rfl
  rw [validateStep_main engine schema options s hshape hallow hgate]
  have hnotrm : (s.op = "remove") = False := by
    rcases hop with h | h | h <;> simp [h]
  have hvt : truthyOptVal s.value = false := by rw [hval]; exact hfalsy
  simp [fromBlock, hfrom, hrule, tailChecks, hnotrm, valueCheck, hvt]

/-- Patch step with a falsy value that the schema rule would reject. -/
def zeroWeightStep : PatchStep :=
  { op := "add", path := some "/meta/current/weight", fromPath := none, value := some (.vNum 0) }

/-- Witness for C8: adding the falsy value 0 at a resolved rule passes
through unchanged even under an engine rejecting every present value. -/
theorem falsy_value_skips_validation_witness :
    validateStep rejectValEngine testSchema defaultOptions (.step zeroWeightStep)
      = { error := none, value := some zeroWeightStep } :=
  falsy_value_skips_validation rejectValEngine testSchema defaultOptions zeroWeightStep
    (.joi weightRule) (.vNum 0) (Or.inl rfl) rfl rfl rfl rfl rfl rfl

/-- C9: a copy or move operation whose `from` path resolves to no schema
node while `allowUnknown` is false fails with a message built from the
operation's target path `step.path`, not its `from` path. -/
theorem invalid_source_uses_target_path (engine : Engine) (schema : SchemaNode)
    (options : JVOptions) (s : PatchStep) (p : String)
    (hop : s.op = "copy" ∨ s.op = "move")
    (hshape : shapeCheckStep s = none)
    (hallow : options.allowedOps.contains s.op = true)
    (htarget : (getValidator (some schema) s.path).isSome = true)
    (hunknown : options.allowUnknown = false)
    (hfrom : truthyOptStr s.fromPath = true)
    (hsource : getValidator (some schema) s.fromPath = none)
    (hp : s.path = some p) :
    (validateStep engine schema options (.step s)).error
      = some (mkStepError ("invalid source " ++ p) s) := by
  have hgate : ((getValidator (some schema) s.path).isNone && !options.allowUnknown) = false := by
    cases hg : getValidator (some schema) s.path with
    | none => rw [hg] at htarget; exact absurd htarget (by decide)
    | some ru => rfl
  rw [validateStep_main engine schema options s hshape hallow hgate]
  simp [fromBlock, hfrom, hsource, stripAllowedOps, hunknown, failRes, hp]

/-- Move step whose source path is unknown to the schema. -/
def moveFromBlahStep : PatchStep :=
  { op := "move", path := some "/description", fromPath := some "/blah", value := none }

/-- Witness for C9: the unresolved-source failure for a move from `/blah`
to `/description` carries the target path `/description` in its message. -/
theorem invalid_source_uses_target_path_witness :
    (validateStep okEngine testSchema defaultOptions (.step moveFromBlahStep)).error
      = some (mkStepError "invalid source /description" moveFromBlahStep) :=
  invalid_source_uses_target_path okEngine testSchema defaultOptions moveFromBlahStep
    "/description" (Or.inr rfl) rfl rfl rfl rfl rfl rfl rfl

/-- C10: a patch array whose first element is falsy yields the single
`empty patch` error and processes none of the array's operations, whatever
the remaining elements are. -/
theorem falsy_first_element_empty_patch (engine : Engine) (schema : SchemaNode)
    (options : JVOptions) (v : JsValue) (rest : List PatchElem)
    (hfalsy : jsTruthy v = false) :
    validate engine (.many (.scalar v :: rest)) schema options
      = { error := some emptyPatchError, value := [] } := by
  simp [validate, normalizeArg, emptyGate, PatchElem.truthy, hfalsy, runSteps, aggregateErrors]

/-- Valid add step used to show later elements are ignored. -/
def addDescriptionStep : PatchStep :=
  { op := "add", path := some "/description", fromPath := none, value := some (.vStr "blah") }

/-- Witness for C10: a null first element hides a subsequent valid
operation behind the `empty patch` error. -/
theorem falsy_first_element_empty_patch_witness :
    validate okEngine (.many [.scalar .vNull, .step addDescriptionStep]) testSchema defaultOptions
      = { error := some emptyPatchError, value := [] } :=
  falsy_first_element_empty_patch okEngine testSchema defaultOptions .vNull
    [.step addDescriptionStep] rfl

/-- C3: a move whose `from` path resolves to a source rule validates an
absent value against that rule through the engine, and a remove whose
target path resolves to a rule validates an absent value against that
rule; in both cases the operation fails exactly when the engine rejects
absence, so removing (or moving away) an optional field succeeds and a
required one fails. -/
theorem absence_prechecks (engine : Engine) (schema : SchemaNode) (options : JVOptions)
    (s : PatchStep)
    (hshape : shapeCheckStep s = none)
    (hallow : options.allowedOps.contains s.op = true)
    (hgate : ((getValidator (some schema) s.path).isNone && !options.allowUnknown) = false)
    (hnoval : truthyOptVal s.value = false) :
    (∀ src, s.op = "move" → truthyOptStr s.fromPath = true →
      getValidator (some schema) s.fromPath = some src →
      ((validateStep engine schema options (.step s)).error.isSome = true
        ↔ (engine none src (stripAllowedOps options)).error.isSome = true)) ∧
    (∀ ru, s.op = "remove" → truthyOptStr s.fromPath = false →
      getValidator (some schema) s.path = some ru →
      ((validateStep engine schema options (.step s)).error.isSome = true
        ↔ (engine none ru (stripAllowedOps options)).error.isSome = true)) := by
  rw [validateStep_main engine schema options s hshape hallow hgate]
  constructor
  · intro src hmove hfrom hsrc
    have hnotrm : (s.op = "remove") = False := by simp [hmove]
    cases he : (engine none src (stripAllowedOps options)).error with
    | some emsg =>
      simp [fromBlock, hfrom, hsrc, hmove, he, failRes]
    | none =>
      cases hr : getValidator (some schema) s.path with
      | none => simp [fromBlock, hfrom, hsrc, hmove, he, tailChecks]
      | some ru => simp [fromBlock, hfrom, hsrc, hmove, he, tailChecks, hnotrm, valueCheck, hnoval]
  · intro ru hrem hfrom hrule
    rw [hrule]
    cases he : (engine none ru (stripAllowedOps options)).error with
    | some emsg =>
      simp [fromBlock, hfrom, tailChecks, hrem, he, failRes]
    | none =>
      simp [fromBlock, hfrom, tailChecks, hrem, he, valueCheck, hnoval]

/-- Move of the required `id` field, whose source rule rejects absence. -/
def moveIdStep : PatchStep :=
  { op := "move", path := some "/description", fromPath := some "/id", value := none }

/-- Remove of the required `id` field. -/
def removeIdStep : PatchStep :=
  { op := "remove", path := some "/id", fromPath := none, value := none }

/-- Remove of the optional `description` field. -/
def removeDescriptionStep : PatchStep :=
  { op := "remove", path := some "/description", fromPath := none, value := none }

/-- Witness for C3: under an engine treating every rule as required, moving
`/id` away fails and removing `/id` fails; under an engine accepting
absence, removing the optional `/description` succeeds. -/
theorem absence_prechecks_witness :
    (validateStep reqEngine testSchema defaultOptions (.step moveIdStep)).error.isSome = true
    ∧ (validateStep reqEngine testSchema defaultOptions (.step removeIdStep)).error.isSome = true
    ∧ (validateStep okEngine testSchema defaultOptions (.step removeDescriptionStep)).error.isSome = false := by
  refine ⟨?_, ?_, ?_⟩
  · exact ((absence_prechecks reqEngine testSchema defaultOptions moveIdStep
      rfl rfl rfl rfl).1 (.joi strRule) rfl rfl rfl).mpr rfl
  · exact ((absence_prechecks reqEngine testSchema defaultOptions removeIdStep
      rfl rfl rfl rfl).2 (.joi strRule) rfl rfl rfl).mpr rfl
  · have h := ((absence_prechecks okEngine testSchema defaultOptions removeDescriptionStep
      rfl rfl rfl rfl).2 (.joi strRule) rfl rfl rfl)
    cases hL : (validateStep okEngine testSchema defaultOptions
        (.step removeDescriptionStep)).error.isSome with
    | false => rfl
    | true => exact absurd (h.mp hL) (by decide)

/-- With `abortEarly` disabled the loop visits every element and collects
each failing element's error, in input order. -/
theorem runSteps_errors_noAbort (engine : Engine) (schema : SchemaNode)
    (options : JVOptions) (hab : options.abortEarly = false) (l : List PatchElem) :
    (runSteps engine schema options l).2
      = l.filterMap (fun e => (validateStep engine schema options e).error) := by
  induction l with
  | nil => rfl
  | cons e rest ih =>
    simp only [runSteps, List.filterMap_cons]
    cases he : (validateStep engine schema options e).error with
    | none => simpa [he] using ih
    | some err => simp [he, hab, ih]

/-- C4: the batch error is null with no failing operation, the single
per-operation error unwrapped with exactly one, and an aggregate
`patch invalid` error carrying the full ordered error list with two or
more; with `abortEarly` false every element is processed and the collected
errors are exactly the failing elements' errors in input order. -/
theorem error_aggregation (engine : Engine) (patch : PatchArg) (schema : SchemaNode)
    (options : JVOptions) :
    (collectedErrors engine patch schema options = [] →
      (validate engine patch schema options).error = none) ∧
    (∀ e, collectedErrors engine patch schema options = [e] →
      (validate engine patch schema options).error = some e) ∧
    (2 ≤ (collectedErrors engine patch schema options).length →
      (validate engine patch schema options).error
        = some (.mk "patch invalid" none none none none
            (some (collectedErrors engine patch schema options)))) ∧
    (options.abortEarly = false →
      ∀ e0 elems, patch = .many (e0 :: elems) → e0.truthy = true →
      collectedErrors engine patch schema options
        = (e0 :: elems).filterMap (fun e => (validateStep engine schema options e).error)) := by
  have hdef : (validate engine patch schema options).error
      = aggregateErrors (collectedErrors engine patch schema options) := rfl
  refine ⟨?_, ?_, ?_, ?_⟩
  · intro h
    rw [hdef, h]; rfl
  · intro e h
    rw [hdef, h]; rfl
  · intro h
    rcases hE : collectedErrors engine patch schema options with _ | ⟨a, _ | ⟨b, t⟩⟩
    · rw [hE] at h; exact absurd h (by decide)
    · rw [hE] at h; exact absurd h (by simp)
    · rw [hdef, hE]; rfl
  · intro hab e0 elems hp ht
    subst hp
    simp only [collectedErrors, normalizeArg, emptyGate, ht, if_true]
    rw [runSteps_errors_noAbort engine schema options hab]
    rfl

/-- Failing move used by the aggregation witness (unknown source). -/
def aggMoveStep : PatchStep :=
  { op := "move", path := some "/description", fromPath := some "/blah", value := none }

/-- Passing replace between the two failing steps of the aggregation
witness. -/
def aggReplaceStep : PatchStep :=
  { op := "replace", path := some "/meta/current/weight", fromPath := none, value := some (.vNum 4) }

/-- Failing remove used by the aggregation witness (unknown path). -/
def aggRemoveStep : PatchStep :=
  { op := "remove", path := some "/blah", fromPath := none, value := none }

/-- Options with `abortEarly` disabled. -/
def noAbortOptions : JVOptions :=
  { defaultOptions with abortEarly := false }

/-- Witness for C4: three operations of which the first and third fail,
run with `abortEarly` false, produce one aggregate error holding exactly
the two failing operations' errors in input order. -/
theorem error_aggregation_witness :
    (validate okEngine (.many [.step aggMoveStep, .step aggReplaceStep, .step aggRemoveStep])
        testSchema noAbortOptions).error
      = some (.mk "patch invalid" none none none none
          (some [mkStepError "invalid source /description" aggMoveStep,
                 mkStepError "invalid path /blah" aggRemoveStep])) := by
  have h := (error_aggregation okEngine
      (.many [.step aggMoveStep, .step aggReplaceStep, .step aggRemoveStep])
      testSchema noAbortOptions).2.2.1 (by decide)
  exact h.trans rfl

/-- Add step carrying a truthy string value at a resolved numeric rule. -/
def addWeightStrStep : PatchStep :=
  { op := "add", path := some "/meta/current/weight", fromPath := none, value := some (.vStr "4") }

/-- C1 counterexample: under an engine that fails the value while
producing a coerced normalized value, the step result carries no output
operation at all and the batch output sequence is empty, so the normalized
operation of a failed validation is not collected. -/
theorem normalized_not_collected_on_failure :
    (validate coerceFailEngine (.many [.step addWeightStrStep]) testSchema defaultOptions).value = []
    ∧ (validate coerceFailEngine (.many [.step addWeightStrStep]) testSchema
        defaultOptions).error.isSome = true
    ∧ (validateStep coerceFailEngine testSchema defaultOptions (.step addWeightStrStep)).value = none :=
  ⟨rfl, rfl, rfl⟩

/-- C1 amended: for an operation with a truthy value whose target resolves
to a rule, the engine's normalized value replaces the original only in the
output operation of a successful validation; a failed validation yields a
step result with no operation (its error carries the original step), and
the orchestrator collects nothing for it. -/
theorem normalization_on_success_only (engine : Engine) (schema : SchemaNode)
    (options : JVOptions) (s : PatchStep) (ru : SchemaNode)
    (hshape : shapeCheckStep s = none)
    (hallow : options.allowedOps.contains s.op = true)
    (hrule : getValidator (some schema) s.path = some ru)
    (hfrom : truthyOptStr s.fromPath = false)
    (hnotrm : s.op ≠ "remove")
    (hval : truthyOptVal s.value = true) :
    ((engine s.value ru (stripAllowedOps options)).error = none →
      validateStep engine schema options (.step s)
        = { error := none
            value := some { s with value := (engine s.value ru (stripAllowedOps options)).value } }) ∧
    (∀ emsg, (engine s.value ru (stripAllowedOps options)).error = some emsg →
      validateStep engine schema options (.step s)
        = { error := some (mkStepError emsg s), value := none }
      ∧ (validate engine (.many [.step s]) schema options).value = []) := by
  have hgate : ((getValidator (some schema) s.path).isNone && !options.allowUnknown) = false := by
    rw [hrule]; rfl
  have hmain := validateStep_main engine schema options s hshape hallow hgate
  rw [hrule] at hmain
  constructor
  · intro he
    rw [hmain]
    simp [fromBlock, hfrom, tailChecks, hnotrm, valueCheck, hval, he]
  · intro emsg he
    have hstep : validateStep engine schema options (.step s)
        = { error := some (mkStepError emsg s), value := none } := by
      rw [hmain]
      simp [fromBlock, hfrom, tailChecks, hnotrm, valueCheck, hval, he, failRes]
    refine ⟨hstep, ?_⟩
    simp only [validate, normalizeArg, emptyGate, PatchElem.truthy, if_true, runSteps, hstep]
    cases options.abortEarly <;> rfl

/-- Witness for C1 amended: a coercing engine that succeeds replaces the
string value with the coerced number in the output operation; the same
step under a coercing engine that fails produces no output operation and
an empty batch output. -/
theorem normalization_on_success_only_witness :
    validateStep coerceOkEngine testSchema defaultOptions (.step addWeightStrStep)
      = { error := none, value := some { addWeightStrStep with value := some (.vNum 4) } }
    ∧ validateStep coerceFailEngine testSchema defaultOptions (.step addWeightStrStep)
      = { error := some (mkStepError "value is out of range" addWeightStrStep), value := none }
    ∧ (validate coerceFailEngine (.many [.step addWeightStrStep]) testSchema defaultOptions).value
      = [] := by
  have hok := (normalization_on_success_only coerceOkEngine testSchema defaultOptions
      addWeightStrStep (.joi weightRule) rfl rfl rfl rfl (by decide) rfl).1 rfl
  have hfail := (normalization_on_success_only coerceFailEngine testSchema defaultOptions
      addWeightStrStep (.joi weightRule) rfl rfl rfl rfl (by decide) rfl).2
      "value is out of range" rfl
  exact ⟨hok, hfail.1, hfail.2⟩

/-- Move with an unknown target path but a required, resolvable source. -/
def moveIdToBlahStep : PatchStep :=
  { op := "move", path := some "/blah", fromPath := some "/id", value := none }

/-- Options with `allowUnknown` enabled. -/
def allowUnknownOptions : JVOptions :=
  { defaultOptions with allowUnknown := true }

/-- C5 counterexample: with `allowUnknown` set and a target path resolving
to absent, a move whose source resolves to an absence-rejecting rule still
fails, so the remaining validation steps are not all skipped. -/
theorem allowUnknown_does_not_skip_move_precheck :
    getValidator (some testSchema) moveIdToBlahStep.path = none
    ∧ (validateStep reqEngine testSchema allowUnknownOptions
        (.step moveIdToBlahStep)).error.isSome = true :=
  ⟨rfl, rfl⟩

/-- C5 amended: with `allowUnknown` set and an absent target, the remove
pre-check and value validation are skipped and the operation passes
through unchanged with a null error, but source resolution and the
move-source pre-check still run; the pass-through holds whenever the
move-source pre-check cannot fail. -/
theorem allowUnknown_passthrough (engine : Engine) (schema : SchemaNode)
    (options : JVOptions) (s : PatchStep)
    (hshape : shapeCheckStep s = none)
    (hallow : options.allowedOps.contains s.op = true)
    (hrule : getValidator (some schema) s.path = none)
    (hunknown : options.allowUnknown = true)
    (hmove : truthyOptStr s.fromPath = true → s.op = "move" →
      ∀ src, getValidator (some schema) s.fromPath = some src →
        (engine none src (stripAllowedOps options)).error = none) :
    validateStep engine schema options (.step s) = { error := none, value := some s } := by
  have hgate : ((getValidator (some schema) s.path).isNone && !options.allowUnknown) = false := by
    rw [hrule, hunknown]; rfl
  rw [validateStep_main engine schema options s hshape hallow hgate, hrule]
  cases hf : truthyOptStr s.fromPath with
  | false => simp [fromBlock, hf, tailChecks]
  | true =>
    cases hs : getValidator (some schema) s.fromPath with
    | none =>
      simp [fromBlock, hf, hs, stripAllowedOps, hunknown, tailChecks]
    | some src =>
      cases hm : decide (s.op = "move") with
      | false =>
        have hm' : ¬ s.op = "move" := of_decide_eq_false hm
        simp [fromBlock, hf, hs, hm', tailChecks]
      | true =>
        have hm' : s.op = "move" := of_decide_eq_true hm
        have he := hmove hf hm' src hs
        simp [fromBlock, hf, hs, hm', he, tailChecks]

/-- Remove of an unknown path, passed through under `allowUnknown`. -/
def removeBlahStep : PatchStep :=
  { op := "remove", path := some "/blah", fromPath := none, value := none }

/-- Witness for C5 amended: with `allowUnknown`, removing the unknown path
`/blah` passes through unchanged with a null error even under an engine
treating every rule as required. -/
theorem allowUnknown_passthrough_witness :
    validateStep reqEngine testSchema allowUnknownOptions (.step removeBlahStep)
      = { error := none, value := some removeBlahStep } := by
  refine allowUnknown_passthrough reqEngine testSchema allowUnknownOptions removeBlahStep
    rfl rfl rfl rfl ?_
  intro hf
  exact absurd hf (by decide)

/-- Remove step at the nested path used to exhibit the path rendering. -/
def deepRemoveStep : PatchStep :=
  { op := "remove", path := some "/meta/current/weight", fromPath := none, value := none }

/-- C6 counterexample: the error built from a step at
`/meta/current/weight` exposes the path `meta/current/weight`, not the
dotted accessor `meta.current.weight`: only the first slash is converted. -/
theorem error_path_not_fully_dotted :
    (mkStepError "msg" deepRemoveStep).path = some "meta/current/weight"
    ∧ (mkStepError "msg" deepRemoveStep).path ≠ some "meta.current.weight" :=
  ⟨rfl, by decide⟩

/-- C6 amended: a truthy step path is rendered on the error by replacing
only its first slash with a dot and then dropping the first character, so
a single-segment pointer becomes the bare accessor (`/id` → `id`) while
deeper slashes survive (`/meta/current/weight` → `meta/current/weight`). -/
theorem error_path_rendering (msg : String) (s : PatchStep) (p : String)
    (hp : s.path = some p) (hne : (p != "") = true) :
    (mkStepError msg s).path = some (dropFirstChar (replaceFirstSlash p))
    ∧ renderPath "/id" = "id"
    ∧ renderPath "/meta/current/weight" = "meta/current/weight" := by
  refine ⟨?_, by decide, by decide⟩
  simp [mkStepError, VError.path, hp, hne, renderPath]

/-- Witness for C6 amended: the rendering applied at the concrete nested
path. -/
theorem error_path_rendering_witness :
    (mkStepError "msg" deepRemoveStep).path
      = some (dropFirstChar (replaceFirstSlash "/meta/current/weight")) :=
  (error_path_rendering "msg" deepRemoveStep "/meta/current/weight" rfl rfl).1

/-- C7 counterexample: a truthy non-array scalar input yields an error,
but a malformed-operation error from the shape check, not the
`empty patch` malformed-input error. -/
theorem truthy_scalar_not_empty_patch :
    (validate okEngine (.one (.scalar (.vNum 5))) testSchema defaultOptions).error
      = some (.mk (formatErrorMessage "Operation is not an object") none none none none none)
    ∧ formatErrorMessage "Operation is not an object" ≠ "empty patch" :=
  ⟨rfl, by decide⟩

/-- C7 amended: an empty array and falsy non-array inputs (null, false, 0,
empty string) yield the `empty patch` error; a truthy non-array scalar is
wrapped as a single operation and rejected by the per-operation shape
check with a distinct malformed-operation error. -/
theorem empty_patch_detection (engine : Engine) (schema : SchemaNode) (options : JVOptions) :
    (validate engine (.many []) schema options).error = some emptyPatchError
    ∧ (∀ v, jsTruthy v = false →
        (validate engine (.one (.scalar v)) schema options).error = some emptyPatchError)
    ∧ (∀ v, jsTruthy v = true →
        (validate engine (.one (.scalar v)) schema options).error
          = some (.mk (formatErrorMessage "Operation is not an object") none none none none none)) := by
  refine ⟨rfl, ?_, ?_⟩
  · intro v hv
    simp [validate, normalizeArg, emptyGate, PatchElem.truthy, hv, runSteps, aggregateErrors]
  · intro v hv
    simp only [validate, normalizeArg, emptyGate, PatchElem.truthy, hv, if_true, runSteps,
      validateStep]
    cases options.abortEarly <;> rfl

/-- Witness for C7 amended: null input yields the `empty patch` error and
the scalar 5 yields the shape-check error instead. -/
theorem empty_patch_detection_witness :
    (validate okEngine (.one (.scalar .vNull)) testSchema defaultOptions).error
      = some emptyPatchError
    ∧ (validate okEngine (.one (.scalar (.vNum 5))) testSchema defaultOptions).error
      = some (.mk (formatErrorMessage "Operation is not an object") none none none none none) :=
  ⟨(empty_patch_detection okEngine testSchema defaultOptions).2.1 .vNull rfl,
   (empty_patch_detection okEngine testSchema defaultOptions).2.2 (.vNum 5) rfl⟩

end JVP
